import Mathlib

/-!
Verification development for the trustrl URL manipulation tool.

The repository's own code (src/parse.rs, src/transform.rs, src/render.rs and
the transformation fold of src/main.rs) is embedded faithfully below.  The
repository builds on the external rust url crate (a WHATWG URL
implementation); the fragment of that crate's behaviour that the repository
exercises (parsing, serialization, and the component setters with their
documented rejection rules) is modelled here as executable Lean definitions.
The query component of a URL is modelled at the level of its decoded ordered
key/value pair list, which is exactly the level at which the repository's
query-string mutator operates (it always round-trips the raw query text
through the crate's form-urlencoded decoder and re-serializer).
-/

/-- Errors of the underlying URL parser: the model of the rust url crate's
ParseError variants reachable in this development. -/
inductive ParseError where
  | relativeUrlWithoutBase
  | emptyHost
  | invalidPort
  | invalidDomainCharacter
  | setHostOnCannotBeABaseUrl
deriving DecidableEq, Repr

/-- Human-readable message of a parse error, the model of rust's Display for
url::ParseError (parse.rs maps errors through e.to_string()). -/
def ParseError.message : ParseError → String
  | .relativeUrlWithoutBase => "relative URL without a base"
  | .emptyHost => "empty host"
  | .invalidPort => "invalid port number"
  | .invalidDomainCharacter => "invalid domain character"
  | .setHostOnCannotBeABaseUrl => "cannot set host on cannot-be-a-base URL"

/-- A parsed URL value: the model of url::Url.  The query is held as the
decoded ordered key/value pair list (present or absent), matching how the
repository reads it (query_pairs) and writes it (query_pairs_mut / set_query). -/
structure Url where
  scheme : String
  username : String
  password : Option String
  host : Option String
  port : Option Nat
  path : String
  query : Option (List (String × String))
  fragment : Option String
  cannotBeABase : Bool
deriving DecidableEq, Repr

/-- ASCII lowercasing of a string, character by character. -/
def lowerStr (s : String) : String := String.mk (s.data.map Char.toLower)

/-- Characters allowed after the first character of a URL scheme. -/
def isSchemeChar (c : Char) : Bool := c.isAlphanum || c = '+' || c = '-' || c = '.'

/-- Accumulating helper for takeScheme. -/
def takeSchemeAux : List Char → List Char → Option (String × List Char)
  | [], _ => none
  | c :: rest, acc =>
    if c = ':' then some (lowerStr (String.mk acc.reverse), rest)
    else if isSchemeChar c then takeSchemeAux rest (c :: acc)
    else none

/-- Split off a leading scheme (lowercased) and the text after the colon;
none when the input has no scheme. -/
def takeScheme : List Char → Option (String × List Char)
  | [] => none
  | c :: rest => if c.isAlpha then takeSchemeAux rest [c] else none

/-- Break a character list at the first occurrence of a character; none when
the character does not occur. -/
def breakAtFirst : List Char → Char → Option (List Char × List Char)
  | [], _ => none
  | x :: xs, c =>
    if x = c then some ([], xs)
    else (breakAtFirst xs c).map (fun ab => (x :: ab.1, ab.2))

/-- Break a character list at the last occurrence of a character. -/
def breakAtLast (l : List Char) (c : Char) : Option (List Char × List Char) :=
  (breakAtFirst l.reverse c).map (fun ab => (ab.2.reverse, ab.1.reverse))

/-- Split a character list on a separator character. -/
def splitOnChar (c : Char) : List Char → List (List Char)
  | [] => [[]]
  | x :: xs =>
    if x = c then [] :: splitOnChar c xs
    else
      match splitOnChar c xs with
      | [] => [[x]]
      | y :: ys => (x :: y) :: ys

/-- Value of a hexadecimal digit. -/
def hexVal (c : Char) : Option Nat :=
  if c.isDigit then some (c.toNat - '0'.toNat)
  else if 'a' ≤ c ∧ c ≤ 'f' then some (c.toNat - 'a'.toNat + 10)
  else if 'A' ≤ c ∧ c ≤ 'F' then some (c.toNat - 'A'.toNat + 10)
  else none

/-- Uppercase hexadecimal digit of a value below 16. -/
def hexDigit (n : Nat) : Char :=
  if n < 10 then Char.ofNat ('0'.toNat + n) else Char.ofNat ('A'.toNat + n - 10)

/-- UTF-8 bytes of a character. -/
def utf8Bytes (c : Char) : List Nat :=
  let n := c.toNat
  if n < 0x80 then [n]
  else if n < 0x800 then [0xC0 + n / 0x40, 0x80 + n % 0x40]
  else if n < 0x10000 then [0xE0 + n / 0x1000, 0x80 + n / 0x40 % 0x40, 0x80 + n % 0x40]
  else [0xF0 + n / 0x40000, 0x80 + n / 0x1000 % 0x40, 0x80 + n / 0x40 % 0x40, 0x80 + n % 0x40]

/-- Percent-encoding of one byte. -/
def percentByte (b : Nat) : List Char := ['%', hexDigit (b / 16), hexDigit (b % 16)]

/-- Form-urlencoded serialization of one character (model of the form_urlencoded
byte serializer used by the url crate's query serializer): alphanumerics and
asterisk, hyphen, period, underscore are kept, space becomes plus, everything
else is percent-encoded byte by byte. -/
def encodeFormChar (c : Char) : List Char :=
  if c.isAlphanum || c = '*' || c = '-' || c = '.' || c = '_' then [c]
  else if c = ' ' then ['+']
  else ((utf8Bytes c).map percentByte).flatten

/-- Form-urlencoded serialization of a string. -/
def encodeForm (s : String) : String := String.mk ((s.data.map encodeFormChar).flatten)

/-- Fuel-indexed percent/plus decoder (fuel makes the recursion structural). -/
def decodeFormAux : Nat → List Char → List Char
  | 0, _ => []
  | _ + 1, [] => []
  | fuel + 1, '%' :: a :: b :: rest =>
    match hexVal a, hexVal b with
    | some x, some y => Char.ofNat (16 * x + y) :: decodeFormAux fuel rest
    | _, _ => '%' :: decodeFormAux fuel (a :: b :: rest)
  | fuel + 1, '+' :: rest => ' ' :: decodeFormAux fuel rest
  | fuel + 1, c :: rest => c :: decodeFormAux fuel rest

/-- Percent/plus decoding of a form-urlencoded component (byte-level model;
decoded bytes are kept as characters of the same code point). -/
def decodeForm (l : List Char) : String := String.mk (decodeFormAux l.length l)

/-- Decode one ampersand-separated query piece into a key/value pair. -/
def queryPairOfPiece (piece : List Char) : String × String :=
  match breakAtFirst piece '=' with
  | some kv => (decodeForm kv.1, decodeForm kv.2)
  | none => (decodeForm piece, "")

/-- Decode a raw query text into its ordered key/value pairs (model of the
form_urlencoded parser: empty ampersand-separated pieces are skipped). -/
def decodeQueryPairs (q : List Char) : List (String × String) :=
  ((splitOnChar '&' q).filter (fun p => !p.isEmpty)).map queryPairOfPiece

/-- Join strings with a separator. -/
def joinSep (sep : String) : List String → String
  | [] => ""
  | [x] => x
  | x :: y :: ys => x ++ sep ++ joinSep sep (y :: ys)

/-- Serialize query pairs back to raw query text. -/
def serializeQueryPairs (pairs : List (String × String)) : String :=
  joinSep "&" (pairs.map (fun kv => encodeForm kv.1 ++ "=" ++ encodeForm kv.2))

/-- Characters kept verbatim in a path (printable ASCII without the path
percent-encode set). -/
def isPathKeepChar (c : Char) : Bool :=
  0x20 < c.toNat && c.toNat < 0x7f
    && !(['"', '<', '>', '\x60', '\x7b', '\x7d', '?', '#'].contains c)

/-- Path percent-encoding of one character. -/
def encodePathChar (c : Char) : List Char :=
  if isPathKeepChar c then [c] else ((utf8Bytes c).map percentByte).flatten

/-- Path-segment percent-encoding of one character (also encodes the slash). -/
def encodeSegChar (c : Char) : List Char :=
  if c = '/' then percentByte 0x2f else encodePathChar c

/-- Percent-encode a whole path. -/
def encodePath (s : String) : String := String.mk ((s.data.map encodePathChar).flatten)

/-- Percent-encode one path segment. -/
def encodeSeg (s : String) : String := String.mk ((s.data.map encodeSegChar).flatten)

/-- The special schemes of the WHATWG URL standard. -/
def isSpecial (s : String) : Bool :=
  ["http", "https", "ws", "wss", "ftp", "file"].contains s

/-- The special schemes other than file (the set named by the url crate's
set_scheme documentation). -/
def isSpecialNotFile (s : String) : Bool :=
  ["http", "https", "ws", "wss", "ftp"].contains s

/-- Default ports known to the url crate itself (used to normalize an explicit
port away); distinct from the renderer's larger scheme table. -/
def knownDefaultPort (scheme : String) : Option Nat :=
  if scheme = "http" ∨ scheme = "ws" then some 80
  else if scheme = "https" ∨ scheme = "wss" then some 443
  else if scheme = "ftp" then some 21
  else none

/-- Parse the port text of an authority. -/
def parsePortChars (scheme : String) (l : List Char) : Except ParseError (Option Nat) :=
  if l.isEmpty then .ok none
  else if l.all Char.isDigit then
    let n := l.foldl (fun acc c => acc * 10 + (c.toNat - '0'.toNat)) 0
    if n > 65535 then .error .invalidPort
    else if some n = knownDefaultPort scheme then .ok none
    else .ok (some n)
  else .error .invalidPort

/-- Characters terminating the authority component. -/
def authorityStopChar (c : Char) : Bool := c = '/' || c = '?' || c = '#'

/-- Raw pieces of an authority component. -/
structure RawAuthority where
  username : String
  password : Option String
  hostChars : List Char
  portChars : List Char

/-- Split an authority at the last at-sign into credentials and host/port,
the credentials at the first colon, and the host/port at the last colon. -/
def splitAuthority (auth : List Char) : RawAuthority :=
  let parts :=
    match breakAtLast auth '@' with
    | some ab => (ab.1, ab.2)
    | none => ([], auth)
  let userpass :=
    match breakAtFirst parts.1 ':' with
    | some kv => (String.mk kv.1, some (String.mk kv.2))
    | none => (String.mk parts.1, none)
  match breakAtLast parts.2 ':' with
  | some hp => ⟨userpass.1, userpass.2, hp.1, hp.2⟩
  | none => ⟨userpass.1, userpass.2, parts.2, []⟩

/-- Raw pieces of the path, query and fragment components. -/
structure PathQueryFrag where
  pathChars : List Char
  queryChars : Option (List Char)
  fragChars : Option (List Char)

/-- Split text after the authority at the first hash into a fragment and, in
what precedes it, at the first question mark into path and query. -/
def splitPathQueryFrag (l : List Char) : PathQueryFrag :=
  let hf :=
    match breakAtFirst l '#' with
    | some ab => (ab.1, some ab.2)
    | none => (l, none)
  match breakAtFirst hf.1 '?' with
  | some ab => ⟨ab.1, some ab.2, hf.2⟩
  | none => ⟨hf.1, none, hf.2⟩

/-- Parse a URL that carries an authority component. -/
def parseWithAuthority (scheme : String) (rest : List Char) (special : Bool) :
    Except ParseError Url :=
  let auth := rest.takeWhile (fun c => !authorityStopChar c)
  let tail := rest.dropWhile (fun c => !authorityStopChar c)
  let ra := splitAuthority auth
  let pqf := splitPathQueryFrag tail
  match parsePortChars scheme ra.portChars with
  | .error e => .error e
  | .ok port =>
    let hostStr := String.mk ra.hostChars
    if special ∧ scheme ≠ "file" ∧ hostStr = "" then .error .emptyHost
    else
      .ok { scheme, username := ra.username, password := ra.password,
            host := some (if special then lowerStr hostStr else hostStr), port,
            path :=
              if pqf.pathChars.isEmpty then (if special then "/" else "")
              else String.mk pqf.pathChars,
            query := pqf.queryChars.map decodeQueryPairs,
            fragment := pqf.fragChars.map String.mk,
            cannotBeABase := false }

/-- Parse a URL without an authority component (hierarchical when the text
after the colon starts with a slash, otherwise cannot-be-a-base). -/
def parseNoAuthority (scheme : String) (rest : List Char) (cnb : Bool) :
    Except ParseError Url :=
  let pqf := splitPathQueryFrag rest
  .ok { scheme, username := "", password := none, host := none, port := none,
        path := String.mk pqf.pathChars,
        query := pqf.queryChars.map decodeQueryPairs,
        fragment := pqf.fragChars.map String.mk,
        cannotBeABase := cnb }

/-- Model of url::Url::parse (absolute URLs): a scheme is required, special
schemes skip any run of slashes and then demand an authority with a non-empty
host (file apart), non-special schemes take an authority only after a double
slash, a path-only remainder starting with a slash stays hierarchical, and
anything else becomes a cannot-be-a-base URL with an opaque-style path. -/
def Url.parse (input : String) : Except ParseError Url :=
  match takeScheme input.data with
  | none => .error .relativeUrlWithoutBase
  | some sr =>
    if isSpecial sr.1 then
      parseWithAuthority sr.1 (sr.2.dropWhile (fun c => c = '/')) true
    else
      match sr.2 with
      | '/' :: '/' :: rest => parseWithAuthority sr.1 rest false
      | '/' :: _ => parseNoAuthority sr.1 sr.2 false
      | _ => parseNoAuthority sr.1 sr.2 true

/-- Serialization of the authority component. -/
def Url.authorityString (u : Url) : String :=
  match u.host with
  | none => ""
  | some h =>
    let creds :=
      if u.username = "" ∧ u.password = none then ""
      else
        u.username ++ (match u.password with | some p => ":" ++ p | none => "") ++ "@"
    let portStr := match u.port with | some p => ":" ++ Nat.repr p | none => ""
    "//" ++ creds ++ h ++ portStr

/-- Serialization of a URL (model of url::Url::as_str / Display). -/
def Url.toString (u : Url) : String :=
  u.scheme ++ ":" ++ u.authorityString ++ u.path
    ++ (match u.query with | some q => "?" ++ serializeQueryPairs q | none => "")
    ++ (match u.fragment with | some f => "#" ++ f | none => "")

/-- Syntax of a valid scheme: a letter followed by letters, digits, plus,
hyphen or period. -/
def validSchemeSyntax (s : String) : Bool :=
  match s.data with
  | [] => false
  | c :: rest => c.isAlpha && rest.all isSchemeChar

/-- Model of url::Url::set_scheme with its documented rejection rules: bad
syntax; cannot-be-a-base to a special non-file scheme; crossing between the
special non-file schemes and everything else; to file while credentials or a
port are present; empty host with a special non-file scheme.  On success the
scheme is lowercased and a port equal to the new scheme's default is dropped. -/
def Url.set_scheme (u : Url) (s : String) : Except Unit Url :=
  let snew := lowerStr s
  if ¬ validSchemeSyntax s then .error ()
  else if u.cannotBeABase ∧ isSpecialNotFile snew then .error ()
  else if isSpecialNotFile u.scheme ≠ isSpecialNotFile snew then .error ()
  else if snew = "file" ∧ (u.username ≠ "" ∨ u.password ≠ none ∨ u.port ≠ none) then .error ()
  else if u.host = some "" ∧ isSpecialNotFile snew then .error ()
  else .ok { u with scheme := snew,
                    port := if u.port = knownDefaultPort snew then none else u.port }

/-- Characters rejected inside a host. -/
def isForbiddenHostChar (c : Char) : Bool :=
  [' ', '#', '/', ':', '<', '>', '?', '@', '[', ']', '^', '|', '\\'].contains c

/-- Model of url::Url::set_host: rejected on cannot-be-a-base URLs, on hosts
with forbidden characters, and on an empty or removed host for special
schemes; special-scheme hosts are lowercased. -/
def Url.set_host (u : Url) (h : Option String) : Except ParseError Url :=
  if u.cannotBeABase then .error .setHostOnCannotBeABaseUrl
  else
    match h with
    | none =>
      if isSpecial u.scheme then .error .emptyHost
      else .ok { u with host := none }
    | some s =>
      if s.data.any isForbiddenHostChar then .error .invalidDomainCharacter
      else if s = "" ∧ isSpecialNotFile u.scheme then .error .emptyHost
      else .ok { u with host := some (if isSpecial u.scheme then lowerStr s else s) }

/-- Model of url::Url::set_port: rejected on cannot-be-a-base URLs, hostless
URLs and the file scheme; a port equal to the scheme's default is dropped. -/
def Url.set_port (u : Url) (p : Option Nat) : Except Unit Url :=
  if u.cannotBeABase ∨ u.host = none ∨ u.scheme = "file" then .error ()
  else .ok { u with port := if p = knownDefaultPort u.scheme then none else p }

/-- Model of url::Url::set_username: rejected on cannot-be-a-base or hostless
URLs. -/
def Url.set_username (u : Url) (user : String) : Except Unit Url :=
  if u.cannotBeABase ∨ u.host = none then .error ()
  else .ok { u with username := user }

/-- Model of url::Url::set_password: rejected on cannot-be-a-base or hostless
URLs; none removes the password entirely. -/
def Url.set_password (u : Url) (pass : Option String) : Except Unit Url :=
  if u.cannotBeABase ∨ u.host = none then .error ()
  else .ok { u with password := pass }

/-- Model of url::Url::set_fragment: always succeeds; none removes the
fragment entirely. -/
def Url.set_fragment (u : Url) (f : Option String) : Url := { u with fragment := f }

/-- Model of url::Url::set_query at the decoded pair level; none removes the
query component entirely. -/
def Url.set_query (u : Url) (q : Option (List (String × String))) : Url :=
  { u with query := q }

/-- Model of url::Url::query_pairs: the decoded ordered key/value pairs, empty
when the query is absent. -/
def Url.query_pairs (u : Url) : List (String × String) := u.query.getD []

/-- Model of query_pairs_mut().append_pair(k, v): appends one pair at the end,
keeping every existing pair. -/
def Url.append_query_pair (u : Url) (k v : String) : Url :=
  { u with query := some (u.query_pairs ++ [(k, v)]) }

/-- Model of url::Url::path_segments: the slash-separated segments after the
leading slash. -/
def Url.path_segments (u : Url) : List String :=
  match u.path.data with
  | '/' :: rest => (splitOnChar '/' rest).map String.mk
  | l => (splitOnChar '/' l).map String.mk

/-- Rebuild the path from its segments. -/
def Url.with_segments (u : Url) (segs : List String) : Url :=
  { u with path := "/" ++ joinSep "/" segs }

/-- Model of url::Url::set_path: always succeeds, percent-encodes as needed,
and prepends a slash on hierarchical URLs when the given path lacks one. -/
def Url.set_path (u : Url) (p : String) : Url :=
  if u.cannotBeABase then { u with path := encodePath p }
  else
    match p.data with
    | '/' :: _ => { u with path := encodePath p }
    | _ => { u with path := "/" ++ encodePath p }

/-- Byte-lexicographic three-way comparison of character lists (model of the
rust Ord for String, which compares UTF-8 bytes; UTF-8 byte order coincides
with code point order). -/
def cmpChars : List Char → List Char → Ordering
  | [], [] => .eq
  | [], _ :: _ => .lt
  | _ :: _, [] => .gt
  | a :: as, b :: bs =>
    if a < b then .lt else if b < a then .gt else cmpChars as bs

/-- Model of the rust Ord for (String, String): lexicographic by key, then by
value. -/
def cmpPair (a b : String × String) : Ordering :=
  (cmpChars a.1.data b.1.data).then (cmpChars a.2.data b.2.data)

/-- The at-most order on key/value pairs induced by cmpPair. -/
def pairLe (a b : String × String) : Prop := cmpPair a b ≠ .gt

instance : DecidableRel pairLe := fun a b =>
  inferInstanceAs (Decidable (cmpPair a b ≠ .gt))

/-- Model of the regex crate's compiled Regex as its matching capability:
is_match reports whether the pattern finds a match somewhere in the haystack. -/
structure Regex where
  is_match : String → Bool

/-- Does the pattern occur as a contiguous run anywhere in the haystack? -/
def containsSubstr (pat : List Char) : List Char → Bool
  | [] => pat.isEmpty
  | c :: rest => pat.isPrefixOf (c :: rest) || containsSubstr pat rest

/-- A compiled literal pattern: is_match finds the literal anywhere in the
haystack (contains-a-match, not a full-string match). -/
def Regex.literal (pat : String) : Regex :=
  ⟨fun s => containsSubstr pat.data s.data⟩

/-- Embedding of transform.rs TransformError. -/
inductive TransformError where
  | transform (name : String)
  | parse (field : String) (e : ParseError)
deriving DecidableEq, Repr

/-- Embedding of transform.rs UrlTransformation. -/
inductive UrlTransformation where
  | setScheme (s : String)
  | setHost (h : String)
  | setPort (p : Nat)
  | setPath (p : String)
  | setUser (u : String)
  | setPassword (p : Option String)
  | setFragment (f : Option String)
  | redirect (p : String)
  | appendPath (p : String)
  | appendQueryString (k v : String)
  | sortQueryString
  | clearQueryString
  | allowQueryString (rs : List Regex)
  | denyQueryString (rs : List Regex)

/-- Embedding of transform.rs UrlTransformation::set_scheme: try the crate's
in-place set_scheme; if it is rejected, serialize the URL, split the text at
the first colon, substitute the new scheme before it and re-parse from
scratch, failing only when the split or the re-parse fails. -/
def UrlTransformation.set_scheme (url : Url) (scheme : String) :
    Except TransformError Url :=
  match url.set_scheme scheme with
  | .ok u => .ok u
  | .error _ =>
    match breakAtFirst url.toString.data ':' with
    | none => .error (.transform "scheme")
    | some ab =>
      match Url.parse (scheme ++ ":" ++ String.mk ab.2) with
      | .ok u => .ok u
      | .error _ => .error (.transform "scheme")

/-- Embedding of transform.rs QueryStringMutator. -/
inductive QueryStringMutator where
  | sort
  | allowlist (rs : List Regex)
  | denylist (rs : List Regex)

/-- Embedding of QueryStringMutator::mutate: decode the query pairs, sort or
retain by the regex lists, and re-serialize; an empty resulting pair list
removes the query component instead of leaving an empty query marker. -/
def QueryStringMutator.mutate (m : QueryStringMutator) (url : Url) : Url :=
  let key_values := url.query_pairs
  let key_values :=
    match m with
    | .sort => List.insertionSort pairLe key_values
    | .allowlist rs => key_values.filter (fun kv => rs.any (fun r => r.is_match kv.1))
    | .denylist rs => key_values.filter (fun kv => !rs.any (fun r => r.is_match kv.1))
  if key_values.isEmpty then url.set_query none
  else url.set_query (some key_values)

/-- Embedding of transform.rs UrlTransformation::apply. -/
def UrlTransformation.apply (t : UrlTransformation) (url : Url) :
    Except TransformError Url :=
  match t with
  | .setScheme s => UrlTransformation.set_scheme url s
  | .setHost h => (url.set_host (some h)).mapError (fun e => .parse "host" e)
  | .setPort p => (url.set_port (some p)).mapError (fun _ => .transform "port")
  | .setPath p => .ok (url.set_path p)
  | .setUser user => (url.set_username user).mapError (fun _ => .transform "user")
  | .setPassword pass => (url.set_password pass).mapError (fun _ => .transform "password")
  | .setFragment f => .ok (url.set_fragment f)
  | .redirect p =>
    match p.data with
    | '/' :: _ => .ok (url.set_path p)
    | _ =>
      if url.cannotBeABase then .error (.transform "redirect")
      else .ok (url.with_segments (url.path_segments.dropLast ++ [encodeSeg p]))
  | .appendPath p =>
    if url.cannotBeABase then .error (.transform "append-path")
    else .ok (url.with_segments (url.path_segments ++ [encodeSeg p]))
  | .appendQueryString k v => .ok (url.append_query_pair k v)
  | .sortQueryString => .ok (QueryStringMutator.sort.mutate url)
  | .clearQueryString => .ok (url.set_query none)
  | .allowQueryString rs => .ok ((QueryStringMutator.allowlist rs).mutate url)
  | .denyQueryString rs => .ok ((QueryStringMutator.denylist rs).mutate url)

/-- Embedding of main.rs Processor::transform: apply the transformations in
the caller-given order, each consuming the previous URL, stopping at the
first error. -/
def Processor.transform (transformations : List UrlTransformation) (url : Url) :
    Except TransformError Url :=
  match transformations with
  | [] => .ok url
  | t :: rest =>
    match t.apply url with
    | .ok url' => Processor.transform rest url'
    | .error e => .error e

/-- Embedding of parse.rs UrlParseError (its message text). -/
structure UrlParseError where
  msg : String
deriving DecidableEq, Repr

/-- Does the string start with a slash (url.starts_with('/'))? -/
def startsWithSlash (s : String) : Bool :=
  match s.data with
  | '/' :: _ => true
  | _ => false

/-- Embedding of the tail of parse.rs parse_url: reject a still
cannot-be-a-base result as unsupported, force an empty scheme to http (the
source asserts the success of that set_scheme with expect), and convert
parser errors to their message. -/
def finalizeParse (output : Except ParseError Url) : Except UrlParseError Url :=
  match output with
  | .ok u =>
    if u.cannotBeABase then .error ⟨"unsupported URL"⟩
    else if u.scheme = "" then .ok { u with scheme := "http" }
    else .ok u
  | .error e => .error ⟨e.message⟩

/-- Embedding of parse.rs parse_url.  Note the first retry branch: the source
formats the parsed Url value itself into "http://{url}", so the retry
prepends to the serialization of the parsed URL, not to the raw input. -/
def parse_url (url : String) : Except UrlParseError Url :=
  finalizeParse
    (match Url.parse url with
     | .ok u =>
       if u.cannotBeABase then Url.parse ("http://" ++ u.toString) else .ok u
     | .error .relativeUrlWithoutBase =>
       if ¬ startsWithSlash url then Url.parse ("http://" ++ url)
       else .error .relativeUrlWithoutBase
     | .error e => .error e)

/-- Transcription of claim C2's wording of parse_url, for comparison with the
embedding of the source: the claim says both retry cases prepend "http://" to
the raw input. -/
def parse_url_claimed (url : String) : Except UrlParseError Url :=
  finalizeParse
    (match Url.parse url with
     | .ok u =>
       if u.cannotBeABase then Url.parse ("http://" ++ url) else .ok u
     | .error .relativeUrlWithoutBase =>
       if ¬ startsWithSlash url then Url.parse ("http://" ++ url)
       else .error .relativeUrlWithoutBase
     | .error e => .error e)

/-- Embedding of the runtime_format FormatKey error as produced by render.rs
UrlFormatter::fmt (the only error it returns is the unknown-key one). -/
inductive FormatKeyError where
  | unknownKey
deriving DecidableEq, Repr

/-- Embedding of render.rs PortFormatter::scheme_port, the static
scheme-to-default-port table. -/
def PortFormatter.scheme_port (scheme : String) : Option Nat :=
  if scheme = "http" ∨ scheme = "ws" ∨ scheme = "rtmpt" ∨ scheme = "rtmpte" then some 80
  else if scheme = "https" ∨ scheme = "wss" ∨ scheme = "rtmps" ∨ scheme = "rtmpts" then some 443
  else if scheme = "ftp" then some 21
  else if scheme = "ftps" then some 990
  else if scheme = "scp" ∨ scheme = "ssh" ∨ scheme = "sftp" then some 22
  else if scheme = "smtp" then some 25
  else if scheme = "smtps" then some 465
  else if scheme = "telnet" then some 21
  else if scheme = "ldap" then some 389
  else if scheme = "ldaps" then some 636
  else if scheme = "pop3" then some 110
  else if scheme = "pop3s" then some 995
  else if scheme = "smb" ∨ scheme = "smbs" then some 445
  else if scheme = "rtsp" then some 554
  else if scheme = "mqtt" then some 1883
  else if scheme = "gopher" then some 70
  else if scheme = "rtmp" ∨ scheme = "rtmpe" then some 1935
  else none

/-- Embedding of render.rs PortFormatter::port: the explicit port when
present, otherwise the scheme's entry in the static table. -/
def PortFormatter.port (url : Url) : Option Nat :=
  match url.port with
  | some p => some p
  | none => PortFormatter.scheme_port url.scheme

/-- Raw query text of a URL (model of url::Url::query), reconstructed from
the pair-level model. -/
def Url.queryString (u : Url) : Option String := u.query.map serializeQueryPairs

/-- Embedding of render.rs UrlFormatter::fmt: resolve one placeholder key to
its text, the port through PortFormatter, anything unrecognized to the
unknown-key error. -/
def UrlFormatter.fmt (url : Url) (key : String) : Except FormatKeyError String :=
  if key = "port" then
    .ok (match PortFormatter.port url with | some p => Nat.repr p | none => "")
  else if key = "url" then .ok url.toString
  else if key = "scheme" then .ok url.scheme
  else if key = "host" then .ok (url.host.getD "")
  else if key = "user" then .ok url.username
  else if key = "password" then .ok (url.password.getD "")
  else if key = "path" then .ok url.path
  else if key = "query" then .ok (url.queryString.getD "")
  else if key = "fragment" then .ok (url.fragment.getD "")
  else .error .unknownKey

/-- A parsed piece of a format string: literal text or a placeholder key. -/
inductive TemplatePart where
  | lit (s : String)
  | key (k : String)
deriving DecidableEq, Repr

/-- Model of the runtime_format format-string scanner: braces delimit
placeholder keys, doubled braces escape a brace, and an unterminated opening
brace is a syntax error.  The second argument accumulates the characters of a
placeholder currently being read, in reverse. -/
def parseTemplateAux : List Char → Option (List Char) → Except Unit (List TemplatePart)
  | [], none => .ok []
  | [], some _ => .error ()
  | c :: rest, some acc =>
    if c = '\x7d' then
      (parseTemplateAux rest none).map (fun ps => .key (String.mk acc.reverse) :: ps)
    else parseTemplateAux rest (some (c :: acc))
  | '\x7b' :: '\x7b' :: rest, none =>
    (parseTemplateAux rest none).map (fun ps => .lit "\x7b" :: ps)
  | '\x7b' :: rest, none => parseTemplateAux rest (some [])
  | '\x7d' :: '\x7d' :: rest, none =>
    (parseTemplateAux rest none).map (fun ps => .lit "\x7d" :: ps)
  | c :: rest, none =>
    (parseTemplateAux rest none).map (fun ps => .lit (String.mk [c]) :: ps)

/-- Embedding of render.rs RenderError, refined with the cause of a failed
formatting pass: a malformed format string or an unrecognized placeholder
(both surface as formatting errors of render in the source). -/
inductive RenderError where
  | io
  | malformed
  | unknownKey
deriving DecidableEq, Repr

/-- Render the parsed format pieces against a URL, failing at the first
unrecognized placeholder. -/
def renderParts (url : Url) : List TemplatePart → Except RenderError String
  | [] => .ok ""
  | .lit s :: rest => (renderParts url rest).map (fun out => s ++ out)
  | .key k :: rest =>
    match UrlFormatter.fmt url k with
    | .error _ => .error .unknownKey
    | .ok s => (renderParts url rest).map (fun out => s ++ out)

/-- Embedding of render.rs UrlTemplate::render: scan the format string and
substitute each placeholder. -/
def UrlTemplate.render (format : String) (url : Url) : Except RenderError String :=
  match parseTemplateAux format.data none with
  | .error _ => .error .malformed
  | .ok parts => renderParts url parts

/-- The schemes present in the renderer's static default-port table. -/
def portSchemes : List String :=
  ["http", "ws", "rtmpt", "rtmpte", "https", "wss", "rtmps", "rtmpts", "ftp",
   "ftps", "scp", "ssh", "sftp", "smtp", "smtps", "telnet", "ldap", "ldaps",
   "pop3", "pop3s", "smb", "smbs", "rtsp", "mqtt", "gopher", "rtmp", "rtmpe"]

/-- The placeholder keys recognized by UrlFormatter::fmt. -/
def recognizedKeys : List String :=
  ["url", "scheme", "host", "port", "user", "password", "path", "query", "fragment"]

/-- Sample URL: the parse of "http://foo.com". -/
def urlHttpFoo : Url :=
  { scheme := "http", username := "", password := none, host := some "foo.com",
    port := none, path := "/", query := none, fragment := none, cannotBeABase := false }

/-- Sample URL: the parse of "data:text/plain,Hello" (cannot-be-a-base). -/
def urlData : Url :=
  { scheme := "data", username := "", password := none, host := none, port := none,
    path := "text/plain,Hello", query := none, fragment := none, cannotBeABase := true }

/-- Sample URL: the parse of "FOO:BAR@baz:123" (cannot-be-a-base; note the
lowercased scheme). -/
def urlFooOpaque : Url :=
  { scheme := "foo", username := "", password := none, host := none, port := none,
    path := "BAR@baz:123", query := none, fragment := none, cannotBeABase := true }

/-- Sample URL: the parse of "potato://foo.com/". -/
def urlPotatoFoo : Url :=
  { scheme := "potato", username := "", password := none, host := some "foo.com",
    port := none, path := "/", query := none, fragment := none, cannotBeABase := false }

theorem cmpChars_eq_iff : ∀ {a b : List Char}, cmpChars a b = .eq ↔ a = b
  | [], [] => by simp [cmpChars]
  | [], _ :: _ => by simp [cmpChars]
  | _ :: _, [] => by simp [cmpChars]
  | a :: as, b :: bs => by
    simp only [cmpChars]
    rcases lt_trichotomy a b with h | h | h
    · simp [h, ne_of_lt h]
    · subst h
      simp [lt_irrefl, cmpChars_eq_iff (a := as) (b := bs)]
    · rw [if_neg (asymm h), if_pos h]
      simp only [reduceCtorEq, false_iff, List.cons.injEq, not_and]
      exact fun hab => absurd hab (ne_of_gt h)

theorem cmpChars_swap : ∀ (a b : List Char), (cmpChars a b).swap = cmpChars b a
  | [], [] => rfl
  | [], _ :: _ => rfl
  | _ :: _, [] => rfl
  | a :: as, b :: bs => by
    simp only [cmpChars]
    rcases lt_trichotomy a b with h | h | h
    · simp [h, asymm h, Ordering.swap]
    · subst h
      simp [lt_irrefl, cmpChars_swap as bs]
    · simp [h, asymm h, Ordering.swap]

theorem cmpChars_lt_trans : ∀ {a b c : List Char},
    cmpChars a b = .lt → cmpChars b c = .lt → cmpChars a c = .lt
  | [], [], _, h1, _ => by simp [cmpChars] at h1
  | [], _ :: _, [], _, h2 => by simp [cmpChars] at h2
  | [], _ :: _, _ :: _, _, _ => by simp [cmpChars]
  | _ :: _, [], _, h1, _ => by simp [cmpChars] at h1
  | _ :: _, _ :: _, [], _, h2 => by simp [cmpChars] at h2
  | a :: as, b :: bs, c :: cs, h1, h2 => by
    simp only [cmpChars] at h1 h2 ⊢
    rcases lt_trichotomy a b with hab | hab | hab
    · rcases lt_trichotomy b c with hbc | hbc | hbc
      · simp [lt_trans hab hbc]
      · subst hbc; simp [hab]
      · rw [if_neg (asymm hbc), if_pos hbc] at h2; cases h2
    · subst hab
      rcases lt_trichotomy a c with hac | hac | hac
      · simp [hac]
      · subst hac
        rw [if_neg (lt_irrefl a)] at h1 h2 ⊢
        rw [if_neg (lt_irrefl a)] at h1 h2 ⊢
        exact cmpChars_lt_trans h1 h2
      · rw [if_neg (asymm hac), if_pos hac] at h2; cases h2
    · rw [if_neg (asymm hab), if_pos hab] at h1; cases h1

theorem strData_inj {a b : String} : a.data = b.data ↔ a = b := by
  constructor
  · intro h
    cases a; cases b; cases h; rfl
  · intro h; rw [h]

theorem cmpPair_eq_iff {a b : String × String} : cmpPair a b = .eq ↔ a = b := by
  rw [cmpPair, Ordering.then_eq_eq, cmpChars_eq_iff, cmpChars_eq_iff,
      strData_inj, strData_inj]
  constructor
  · intro h
    exact Prod.ext h.1 h.2
  · intro h
    exact ⟨congrArg Prod.fst h, congrArg Prod.snd h⟩

theorem cmpPair_swap (a b : String × String) : (cmpPair a b).swap = cmpPair b a := by
  have hswap : ∀ (x y : Ordering), (x.then y).swap = x.swap.then y.swap := by
    intro x y; cases x <;> rfl
  rw [cmpPair, cmpPair, hswap, cmpChars_swap, cmpChars_swap]

theorem cmpPair_lt_trans {a b c : String × String} :
    cmpPair a b = .lt → cmpPair b c = .lt → cmpPair a c = .lt := by
  rw [cmpPair, cmpPair, cmpPair, Ordering.then_eq_lt, Ordering.then_eq_lt,
      Ordering.then_eq_lt]
  rintro (h1 | ⟨h1, h1v⟩) (h2 | ⟨h2, h2v⟩)
  · exact Or.inl (cmpChars_lt_trans h1 h2)
  · rw [cmpChars_eq_iff] at h2
    exact Or.inl (h2 ▸ h1)
  · rw [cmpChars_eq_iff] at h1
    exact Or.inl (h1 ▸ h2)
  · rw [cmpChars_eq_iff] at h1 h2
    refine Or.inr ⟨?_, ?_⟩
    · rw [cmpChars_eq_iff]; exact h1.trans h2
    · exact cmpChars_lt_trans h1v h2v

instance : IsTrans (String × String) pairLe := by
  constructor
  intro a b c hab hbc
  unfold pairLe at *
  cases h1 : cmpPair a b with
  | gt => exact absurd h1 hab
  | eq =>
    rw [cmpPair_eq_iff] at h1
    exact h1 ▸ hbc
  | lt =>
    cases h2 : cmpPair b c with
    | gt => exact absurd h2 hbc
    | eq =>
      rw [cmpPair_eq_iff] at h2
      rw [← h2]
      exact hab
    | lt =>
      rw [cmpPair_lt_trans h1 h2]
      simp

instance : IsTotal (String × String) pairLe := by
  constructor
  intro a b
  unfold pairLe
  by_cases h : cmpPair a b = .gt
  · right
    rw [← cmpPair_swap, h]
    simp [Ordering.swap]
  · exact Or.inl h

theorem containsSubstr_iff (pat : List Char) :
    ∀ (l : List Char), containsSubstr pat l = true ↔ ∃ pre post, l = pre ++ pat ++ post
  | [] => by
    simp only [containsSubstr, List.isEmpty_iff]
    constructor
    · intro h
      exact ⟨[], [], by simp [h]⟩
    · rintro ⟨pre, post, h⟩
      exact (List.append_eq_nil.mp (List.append_eq_nil.mp h.symm).1).2
  | c :: rest => by
    simp only [containsSubstr, Bool.or_eq_true, List.isPrefixOf_iff_prefix,
      containsSubstr_iff pat rest]
    constructor
    · rintro (⟨t, ht⟩ | ⟨pre, post, h⟩)
      · exact ⟨[], t, by simp [ht]⟩
      · exact ⟨c :: pre, post, by simp [h]⟩
    · rintro ⟨pre, post, h⟩
      cases pre with
      | nil =>
        refine Or.inl ⟨post, ?_⟩
        simpa using h.symm
      | cons p ps =>
        simp only [List.cons_append, List.cons.injEq] at h
        exact Or.inr ⟨ps, post, h.2⟩

theorem query_pairs_mutate_sort (u : Url) :
    (QueryStringMutator.sort.mutate u).query_pairs
      = List.insertionSort pairLe u.query_pairs := by
  rw [QueryStringMutator.mutate]
  split
  · next h =>
    rw [List.isEmpty_iff.mp h]
    rfl
  · rfl

theorem query_pairs_mutate_allow (rs : List Regex) (u : Url) :
    ((QueryStringMutator.allowlist rs).mutate u).query_pairs
      = u.query_pairs.filter (fun kv => rs.any (fun r => r.is_match kv.1)) := by
  rw [QueryStringMutator.mutate]
  split
  · next h =>
    rw [List.isEmpty_iff.mp h]
    rfl
  · rfl

theorem query_pairs_mutate_deny (rs : List Regex) (u : Url) :
    ((QueryStringMutator.denylist rs).mutate u).query_pairs
      = u.query_pairs.filter (fun kv => !rs.any (fun r => r.is_match kv.1)) := by
  rw [QueryStringMutator.mutate]
  split
  · next h =>
    rw [List.isEmpty_iff.mp h]
    rfl
  · rfl

theorem Processor.transform_append (ts₁ ts₂ : List UrlTransformation) (u : Url) :
    Processor.transform (ts₁ ++ ts₂) u
      = match Processor.transform ts₁ u with
        | .ok v => Processor.transform ts₂ v
        | .error e => .error e := by
  induction ts₁ generalizing u with
  | nil => rfl
  | cons t rest ih =>
    rw [List.cons_append, Processor.transform, Processor.transform]
    cases t.apply u with
    | ok v => exact ih v
    | error e => rfl

theorem UrlFormatter.fmt_unknown (u : Url) (k : String) (h : k ∉ recognizedKeys) :
    UrlFormatter.fmt u k = .error .unknownKey := by
  simp only [recognizedKeys, List.mem_cons, List.not_mem_nil, or_false, not_or] at h
  obtain ⟨h1, h2, h3, h4, h5, h6, h7, h8, h9⟩ := h
  simp [UrlFormatter.fmt, h1, h2, h3, h4, h5, h6, h7, h8, h9]

theorem renderParts_unknown (u : Url) (k : String) (hk : k ∉ recognizedKeys) :
    ∀ (parts : List TemplatePart), TemplatePart.key k ∈ parts →
      renderParts u parts = .error .unknownKey
  | [], hm => absurd hm (List.not_mem_nil _)
  | .lit s :: rest, hm => by
    have hm' : TemplatePart.key k ∈ rest := by
      rcases List.mem_cons.mp hm with h | h
      · cases h
      · exact h
    rw [renderParts, renderParts_unknown u k hk rest hm']
    rfl
  | .key k' :: rest, hm => by
    rw [renderParts]
    cases hf : UrlFormatter.fmt u k' with
    | error e => cases e; rfl
    | ok s =>
      have hm' : TemplatePart.key k ∈ rest := by
        rcases List.mem_cons.mp hm with h | h
        · cases h
          rw [UrlFormatter.fmt_unknown u k hk] at hf
          cases hf
        · exact h
      rw [renderParts_unknown u k hk rest hm']
      rfl

theorem finalizeParse_ok_scheme {o : Except ParseError Url} {u : Url}
    (h : finalizeParse o = .ok u) : u.scheme ≠ "" := by
  cases o with
  | error e => cases h
  | ok v =>
    rw [finalizeParse] at h
    split at h
    · cases h
    · split at h
      · cases h
        simp
      · next hne =>
        cases h
        exact hne

theorem string_append_empty (s : String) : s ++ "" = s := by
  cases s with
  | mk data =>
    show String.mk (data ++ []) = String.mk data
    rw [List.append_nil]

theorem Url.set_query_none_of_none {u : Url} (h : u.query = none) :
    u.set_query none = u := by
  obtain ⟨s, un, pw, ho, po, pa, q, fr, c⟩ := u
  cases h
  rfl

theorem mutate_sort_idem (u : Url) :
    QueryStringMutator.sort.mutate (QueryStringMutator.sort.mutate u)
      = QueryStringMutator.sort.mutate u := by
  by_cases h : (List.insertionSort pairLe u.query_pairs).isEmpty
  · have hmu : QueryStringMutator.sort.mutate u = u.set_query none := by
      rw [QueryStringMutator.mutate, if_pos h]
    rw [hmu]
    rw [QueryStringMutator.mutate]
    simp only [Url.set_query, Url.query_pairs]
    rfl
  · have hmu : QueryStringMutator.sort.mutate u
        = u.set_query (some (List.insertionSort pairLe u.query_pairs)) := by
      rw [QueryStringMutator.mutate, if_neg h]
    rw [hmu]
    rw [QueryStringMutator.mutate]
    have hpairs : (u.set_query (some (List.insertionSort pairLe u.query_pairs))).query_pairs
        = List.insertionSort pairLe u.query_pairs := rfl
    rw [hpairs]
    rw [List.Sorted.insertionSort_eq (List.sorted_insertionSort pairLe u.query_pairs)]
    rw [if_neg h]
    rfl

theorem scheme_port_none_of_not_mem (s : String) (h : s ∉ portSchemes) :
    PortFormatter.scheme_port s = none := by
  simp only [portSchemes, List.mem_cons, List.not_mem_nil, or_false, not_or] at h
  obtain ⟨h1, h2, h3, h4, h5, h6, h7, h8, h9, h10, h11, h12, h13, h14, h15, h16,
    h17, h18, h19, h20, h21, h22, h23, h24, h25, h26, h27⟩ := h
  simp [PortFormatter.scheme_port, h1, h2, h3, h4, h5, h6, h7, h8, h9, h10, h11,
    h12, h13, h14, h15, h16, h17, h18, h19, h20, h21, h22, h23, h24, h25, h26, h27]

theorem render_port_shape (u : Url) :
    UrlTemplate.render "\x7bport\x7d" u
      = .ok ((match PortFormatter.port u with
              | some p => Nat.repr p
              | none => "") ++ "") := rfl

/-- C1: Processor::transform is a left fold over the caller-given ordered
list of transformations: the empty list returns the URL unchanged, each
operation consumes the URL produced by the previous one, and the first
operation that returns an error aborts the whole fold — the error is
returned unchanged whatever transformations follow, so no partially
transformed URL is returned and no later operation in the list is applied. -/
theorem Processor.transform_fold_fail_fast
    (t : UrlTransformation) (ts₁ ts₂ : List UrlTransformation) (u : Url) :
    Processor.transform [] u = .ok u
  ∧ (∀ v, t.apply u = .ok v →
      Processor.transform (t :: ts₁) u = Processor.transform ts₁ v)
  ∧ (∀ e, t.apply u = .error e →
      Processor.transform (t :: ts₁) u = .error e)
  ∧ (∀ v, Processor.transform ts₁ u = .ok v →
      Processor.transform (ts₁ ++ ts₂) u = Processor.transform ts₂ v)
  ∧ (∀ e, Processor.transform ts₁ u = .error e →
      Processor.transform (ts₁ ++ ts₂) u = .error e) := by
  refine ⟨rfl, ?_, ?_, ?_, ?_⟩
  · intro v h
    rw [Processor.transform, h]
  · intro e h
    rw [Processor.transform, h]
  · intro v h
    rw [Processor.transform_append, h]
  · intro e h
    rw [Processor.transform_append, h]

/-- Witness for C1 at concrete inputs: a succeeding head operation hands its
output to the rest of the list, and a failing head operation (append-path on
a cannot-be-a-base URL) aborts with its error whatever follows. -/
theorem Processor.transform_fold_fail_fast_witness :
    ((UrlTransformation.setFragment (some "x")).apply urlHttpFoo
       = .ok (urlHttpFoo.set_fragment (some "x")))
  ∧ Processor.transform
      [UrlTransformation.setFragment (some "x"), UrlTransformation.sortQueryString]
      urlHttpFoo
      = Processor.transform [UrlTransformation.sortQueryString]
          (urlHttpFoo.set_fragment (some "x"))
  ∧ ((UrlTransformation.appendPath "x").apply urlData
       = .error (.transform "append-path"))
  ∧ Processor.transform
      [UrlTransformation.appendPath "x", UrlTransformation.sortQueryString] urlData
      = .error (.transform "append-path") :=
  ⟨rfl,
   (Processor.transform_fold_fail_fast (UrlTransformation.setFragment (some "x"))
      [UrlTransformation.sortQueryString] [] urlHttpFoo).2.1 _ rfl,
   rfl,
   (Processor.transform_fold_fail_fast (UrlTransformation.appendPath "x")
      [UrlTransformation.sortQueryString] [] urlData).2.2.1 _ rfl⟩

/-- C7: AppendQueryString(k, v) never fails, and the resulting URL's query
consists of all original query pairs, in order and including duplicate keys,
followed by the new pair (k, v) at the end. -/
theorem appendQueryString_appends (u : Url) (k v : String) :
    ∃ u', (UrlTransformation.appendQueryString k v).apply u = .ok u'
      ∧ u'.query = some (u.query_pairs ++ [(k, v)])
      ∧ u'.query_pairs = u.query_pairs ++ [(k, v)] :=
  ⟨u.append_query_pair k v, rfl, rfl, rfl⟩

/-- C10: SetFragment (some or none), ClearQueryString, SortQueryString,
AllowQueryString and DenyQueryString always return Ok on every URL: none of
these five operations has an error branch. -/
theorem five_transformations_never_fail (u : Url) (f : Option String)
    (A D : List Regex) :
    ((UrlTransformation.setFragment f).apply u).isOk = true
  ∧ (UrlTransformation.clearQueryString.apply u).isOk = true
  ∧ (UrlTransformation.sortQueryString.apply u).isOk = true
  ∧ ((UrlTransformation.allowQueryString A).apply u).isOk = true
  ∧ ((UrlTransformation.denyQueryString D).apply u).isOk = true :=
  ⟨rfl, rfl, rfl, rfl, rfl⟩

/-- C4: applying AllowQueryString(A) and then DenyQueryString(D) yields a URL
whose query pairs are exactly the pairs of the original whose key matches at
least one pattern of A and no pattern of D, in their original relative order
(filter preserves order); and matching for a literal pattern means the
pattern occurs somewhere inside the key (contains-a-match), not a
full-string match. -/
theorem allow_then_deny_set_algebra (A D : List Regex) (u : Url) :
    (∀ u₁ u₂, (UrlTransformation.allowQueryString A).apply u = .ok u₁ →
      (UrlTransformation.denyQueryString D).apply u₁ = .ok u₂ →
      u₂.query_pairs = u.query_pairs.filter
        (fun kv => (A.any (fun r => r.is_match kv.1))
          && !(D.any (fun r => r.is_match kv.1))))
  ∧ (∀ pat k : String, (Regex.literal pat).is_match k = true
      ↔ ∃ pre post, k.data = pre ++ pat.data ++ post) := by
  constructor
  · intro u₁ u₂ h₁ h₂
    have e₁ : u₁ = (QueryStringMutator.allowlist A).mutate u := by
      cases h₁; rfl
    have e₂ : u₂ = (QueryStringMutator.denylist D).mutate u₁ := by
      cases h₂; rfl
    rw [e₂, query_pairs_mutate_deny, e₁, query_pairs_mutate_allow,
        List.filter_filter]
    refine List.filter_congr ?_
    intro kv _
    rw [Bool.and_comm]
  · intro pat k
    exact containsSubstr_iff pat.data k.data

/-- Witness for C4 at concrete inputs: with allow pattern "a" and deny
pattern "b" on query a1=v, ab=w, c=z only a1=v survives, and the literal
matcher finds "ses" inside "sesame". -/
theorem allow_then_deny_set_algebra_witness :
    ((UrlTransformation.allowQueryString [Regex.literal "a"]).apply
        { urlHttpFoo with query := some [("a1", "v"), ("ab", "w"), ("c", "z")] }
      = .ok { urlHttpFoo with query := some [("a1", "v"), ("ab", "w")] })
  ∧ ((UrlTransformation.denyQueryString [Regex.literal "b"]).apply
        { urlHttpFoo with query := some [("a1", "v"), ("ab", "w")] }
      = .ok { urlHttpFoo with query := some [("a1", "v")] })
  ∧ (({ urlHttpFoo with query := some [("a1", "v")] } : Url).query_pairs
      = List.filter
          (fun kv => (([Regex.literal "a"].any (fun r => r.is_match kv.1))
            && !([Regex.literal "b"].any (fun r => r.is_match kv.1))))
          (({ urlHttpFoo with
                query := some [("a1", "v"), ("ab", "w"), ("c", "z")] } : Url).query_pairs))
  ∧ ((Regex.literal "ses").is_match "sesame" = true
      ↔ ∃ pre post, ("sesame" : String).data = pre ++ ("ses" : String).data ++ post) :=
  ⟨rfl, rfl,
   (allow_then_deny_set_algebra [Regex.literal "a"] [Regex.literal "b"]
      { urlHttpFoo with query := some [("a1", "v"), ("ab", "w"), ("c", "z")] }).1
     _ _ rfl rfl,
   (allow_then_deny_set_algebra [Regex.literal "a"] [Regex.literal "b"]
      { urlHttpFoo with query := some [("a1", "v"), ("ab", "w"), ("c", "z")] }).2
     "ses" "sesame"⟩

/-- C5: SortQueryString is idempotent (applying it twice equals applying it
once); one application leaves the query pairs sorted lexicographically by
key and then value (a sorted permutation of the original pairs, computed by
the embedded stable sort); and on a URL with no query the output equals the
input unchanged, the query component staying absent. -/
theorem sortQueryString_sorted_idempotent (u : Url) :
    ((UrlTransformation.sortQueryString.apply u).bind
        UrlTransformation.sortQueryString.apply
      = UrlTransformation.sortQueryString.apply u)
  ∧ (∀ u₁, UrlTransformation.sortQueryString.apply u = .ok u₁ →
      u₁.query_pairs = List.insertionSort pairLe u.query_pairs
      ∧ List.Sorted pairLe u₁.query_pairs
      ∧ List.Perm u₁.query_pairs u.query_pairs)
  ∧ (u.query = none → UrlTransformation.sortQueryString.apply u = .ok u) := by
  refine ⟨?_, ?_, ?_⟩
  · show Except.ok (QueryStringMutator.sort.mutate (QueryStringMutator.sort.mutate u))
      = Except.ok (QueryStringMutator.sort.mutate u)
    rw [mutate_sort_idem]
  · intro u₁ h
    have e₁ : u₁ = QueryStringMutator.sort.mutate u := by cases h; rfl
    subst e₁
    refine ⟨query_pairs_mutate_sort u, ?_, ?_⟩
    · rw [query_pairs_mutate_sort]
      exact List.sorted_insertionSort pairLe u.query_pairs
    · rw [query_pairs_mutate_sort]
      exact List.perm_insertionSort pairLe u.query_pairs
  · intro h
    show Except.ok (QueryStringMutator.sort.mutate u) = Except.ok u
    have hp : u.query_pairs = [] := by rw [Url.query_pairs, h]; rfl
    rw [QueryStringMutator.mutate]
    rw [hp]
    have he : (List.insertionSort pairLe ([] : List (String × String))).isEmpty = true := rfl
    rw [if_pos he]
    rw [Url.set_query_none_of_none h]

/-- Witness for C5 at concrete inputs: sorting b=1, a=2 yields a=2, b=1 with
the stated sortedness and permutation, and a query-less URL is unchanged. -/
theorem sortQueryString_sorted_idempotent_witness :
    (UrlTransformation.sortQueryString.apply
        { urlHttpFoo with query := some [("b", "1"), ("a", "2")] }
      = .ok { urlHttpFoo with query := some [("a", "2"), ("b", "1")] })
  ∧ (({ urlHttpFoo with query := some [("a", "2"), ("b", "1")] } : Url).query_pairs
      = List.insertionSort pairLe
          (({ urlHttpFoo with query := some [("b", "1"), ("a", "2")] } : Url).query_pairs)
    ∧ List.Sorted pairLe
        (({ urlHttpFoo with query := some [("a", "2"), ("b", "1")] } : Url).query_pairs)
    ∧ List.Perm
        (({ urlHttpFoo with query := some [("a", "2"), ("b", "1")] } : Url).query_pairs)
        (({ urlHttpFoo with query := some [("b", "1"), ("a", "2")] } : Url).query_pairs))
  ∧ (urlHttpFoo.query = none
      ∧ UrlTransformation.sortQueryString.apply urlHttpFoo = .ok urlHttpFoo) :=
  ⟨rfl,
   (sortQueryString_sorted_idempotent
      { urlHttpFoo with query := some [("b", "1"), ("a", "2")] }).2.1 _ rfl,
   rfl,
   (sortQueryString_sorted_idempotent urlHttpFoo).2.2 rfl⟩

/-- C6: rendering the template key port uses the URL's explicit port when one
is present; otherwise it looks the scheme up in the fixed default-port table
(http, ws, rtmpt, rtmpte to 80; https, wss, rtmps, rtmpts to 443; ftp to 21;
ftps to 990; scp, ssh, sftp to 22; smtp to 25; smtps to 465; telnet to 21;
ldap to 389; ldaps to 636; pop3 to 110; pop3s to 995; smb, smbs to 445; rtsp
to 554; mqtt to 1883; gopher to 70; rtmp, rtmpe to 1935); if the scheme is
not in the table and no explicit port exists, the key renders as the empty
string. -/
theorem render_port_resolution (u : Url) :
    (∀ p, u.port = some p →
        UrlTemplate.render "\x7bport\x7d" u = .ok (Nat.repr p))
  ∧ (∀ d, u.port = none → PortFormatter.scheme_port u.scheme = some d →
        UrlTemplate.render "\x7bport\x7d" u = .ok (Nat.repr d))
  ∧ (u.port = none → u.scheme ∉ portSchemes →
        UrlTemplate.render "\x7bport\x7d" u = .ok "")
  ∧ (PortFormatter.scheme_port "http" = some 80
      ∧ PortFormatter.scheme_port "ws" = some 80
      ∧ PortFormatter.scheme_port "rtmpt" = some 80
      ∧ PortFormatter.scheme_port "rtmpte" = some 80
      ∧ PortFormatter.scheme_port "https" = some 443
      ∧ PortFormatter.scheme_port "wss" = some 443
      ∧ PortFormatter.scheme_port "rtmps" = some 443
      ∧ PortFormatter.scheme_port "rtmpts" = some 443
      ∧ PortFormatter.scheme_port "ftp" = some 21
      ∧ PortFormatter.scheme_port "ftps" = some 990
      ∧ PortFormatter.scheme_port "scp" = some 22
      ∧ PortFormatter.scheme_port "ssh" = some 22
      ∧ PortFormatter.scheme_port "sftp" = some 22
      ∧ PortFormatter.scheme_port "smtp" = some 25
      ∧ PortFormatter.scheme_port "smtps" = some 465
      ∧ PortFormatter.scheme_port "telnet" = some 21
      ∧ PortFormatter.scheme_port "ldap" = some 389
      ∧ PortFormatter.scheme_port "ldaps" = some 636
      ∧ PortFormatter.scheme_port "pop3" = some 110
      ∧ PortFormatter.scheme_port "pop3s" = some 995
      ∧ PortFormatter.scheme_port "smb" = some 445
      ∧ PortFormatter.scheme_port "smbs" = some 445
      ∧ PortFormatter.scheme_port "rtsp" = some 554
      ∧ PortFormatter.scheme_port "mqtt" = some 1883
      ∧ PortFormatter.scheme_port "gopher" = some 70
      ∧ PortFormatter.scheme_port "rtmp" = some 1935
      ∧ PortFormatter.scheme_port "rtmpe" = some 1935) := by
  refine ⟨?_, ?_, ?_,
    rfl, rfl, rfl, rfl, rfl, rfl, rfl, rfl, rfl, rfl, rfl, rfl, rfl, rfl,
    rfl, rfl, rfl, rfl, rfl, rfl, rfl, rfl, rfl, rfl, rfl, rfl, rfl⟩
  · intro p h
    rw [render_port_shape, PortFormatter.port, h]
    rw [string_append_empty]
  · intro d h hd
    rw [render_port_shape, PortFormatter.port, h, hd]
    rw [string_append_empty]
  · intro h hs
    rw [render_port_shape, PortFormatter.port, h,
        scheme_port_none_of_not_mem u.scheme hs]
    rfl

/-- Witness for C6 at concrete inputs: an explicit port 8080 renders as 8080,
the http default renders as 80, and an unknown scheme with no explicit port
renders as the empty string. -/
theorem render_port_resolution_witness :
    UrlTemplate.render "\x7bport\x7d" { urlHttpFoo with port := some 8080 }
      = .ok (Nat.repr 8080)
  ∧ UrlTemplate.render "\x7bport\x7d" urlHttpFoo = .ok (Nat.repr 80)
  ∧ UrlTemplate.render "\x7bport\x7d" urlPotatoFoo = .ok "" :=
  ⟨(render_port_resolution { urlHttpFoo with port := some 8080 }).1 8080 rfl,
   (render_port_resolution urlHttpFoo).2.1 80 rfl rfl,
   (render_port_resolution urlPotatoFoo).2.2.1 rfl (by decide)⟩

/-- C8: every string accepted by parse_url comes back with a non-empty
scheme; when the parse would otherwise reach a URL with an empty scheme, the
final step of parse_url forces the scheme to http before returning. -/
theorem parse_url_scheme_nonempty (raw : String) (u : Url)
    (h : parse_url raw = .ok u) : u.scheme ≠ "" := by
  rw [parse_url] at h
  exact finalizeParse_ok_scheme h

/-- Witness for C8 at a concrete input: the parse of "foo.com" carries the
non-empty scheme http. -/
theorem parse_url_scheme_nonempty_witness : urlHttpFoo.scheme ≠ "" :=
  parse_url_scheme_nonempty "foo.com" urlHttpFoo rfl

/-- C9: rendering a template whose format string parses but contains a
placeholder key outside the recognized set (url, scheme, host, port, user,
password, path, query, fragment) fails with the unknown-key error, and a
format string with an unterminated opening brace fails with the syntax
error; in both cases render returns an error rather than output text. -/
theorem render_unknown_key_or_malformed (u : Url) (format : String) :
    (∀ parts k, parseTemplateAux format.data none = .ok parts →
        TemplatePart.key k ∈ parts → k ∉ recognizedKeys →
        UrlTemplate.render format u = .error .unknownKey)
  ∧ (parseTemplateAux format.data none = .error () →
        UrlTemplate.render format u = .error .malformed) := by
  constructor
  · intro parts k hp hm hk
    rw [UrlTemplate.render, hp]
    exact renderParts_unknown u k hk parts hm
  · intro h
    rw [UrlTemplate.render, h]

/-- Witness for C9 at concrete inputs: the format with the unrecognized key
other fails with the unknown-key error, and the format with an unterminated
opening brace fails with the syntax error. -/
theorem render_unknown_key_or_malformed_witness :
    UrlTemplate.render "\x7bother\x7d" urlHttpFoo = .error .unknownKey
  ∧ UrlTemplate.render "\x7bother" urlHttpFoo = .error .malformed :=
  ⟨(render_unknown_key_or_malformed urlHttpFoo "\x7bother\x7d").1
     [.key "other"] "other" rfl (List.mem_singleton.mpr rfl) (by decide),
   (render_unknown_key_or_malformed urlHttpFoo "\x7bother").2 rfl⟩

/-- C3: SetScheme(s) first attempts the underlying in-place scheme
replacement, and returns its result when it is accepted; exactly when that
in-place attempt is rejected it falls back to serializing the URL as text,
splitting at the first colon, substituting s for everything before it and
re-parsing from scratch, returning the re-parsed URL on success and an error
exactly when the serialized URL has no colon or the re-parse fails. -/
theorem setScheme_two_step_policy (u : Url) (s : String) :
    (∀ u', u.set_scheme s = .ok u' →
        UrlTransformation.set_scheme u s = .ok u')
  ∧ (u.set_scheme s = .error () →
      (breakAtFirst u.toString.data ':' = none →
          UrlTransformation.set_scheme u s = .error (.transform "scheme"))
    ∧ (∀ pre rest, breakAtFirst u.toString.data ':' = some (pre, rest) →
        (∀ u', Url.parse (s ++ ":" ++ String.mk rest) = .ok u' →
            UrlTransformation.set_scheme u s = .ok u')
      ∧ (∀ e, Url.parse (s ++ ":" ++ String.mk rest) = .error e →
            UrlTransformation.set_scheme u s = .error (.transform "scheme")))) := by
  constructor
  · intro u' h
    rw [UrlTransformation.set_scheme, h]
  · intro h
    constructor
    · intro hb
      rw [UrlTransformation.set_scheme, h, hb]
    · intro pre rest hb
      constructor
      · intro u' hp
        simp only [UrlTransformation.set_scheme, h, hb, hp]
      · intro e hp
        simp only [UrlTransformation.set_scheme, h, hb, hp]

/-- Witness for C3 at concrete inputs: http to https on http://foo.com/ is
accepted in place, while http to potato is rejected in place and succeeds
through the serialize-substitute-reparse fallback. -/
theorem setScheme_two_step_policy_witness :
    (urlHttpFoo.set_scheme "https" = .ok { urlHttpFoo with scheme := "https" }
      ∧ UrlTransformation.set_scheme urlHttpFoo "https"
          = .ok { urlHttpFoo with scheme := "https" })
  ∧ (urlHttpFoo.set_scheme "potato" = .error ()
      ∧ breakAtFirst urlHttpFoo.toString.data ':'
          = some ("http".data, "//foo.com/".data)
      ∧ Url.parse ("potato" ++ ":" ++ String.mk "//foo.com/".data) = .ok urlPotatoFoo
      ∧ UrlTransformation.set_scheme urlHttpFoo "potato" = .ok urlPotatoFoo) :=
  ⟨⟨rfl, (setScheme_two_step_policy urlHttpFoo "https").1 _ rfl⟩,
   ⟨rfl, rfl, rfl,
    (((setScheme_two_step_policy urlHttpFoo "potato").2 rfl).2
       "http".data "//foo.com/".data rfl).1 urlPotatoFoo rfl⟩⟩

/-- Counterexample for C2 as stated: on the input "FOO:BAR@baz:123" the
source retries by prepending "http://" to the serialization of the parsed
cannot-be-a-base URL (whose scheme has been lowercased to foo), not to the
raw input as the claim says; the two recipes produce different URLs, with
username foo versus FOO. -/
theorem parse_url_retry_raw_counterexample :
    (parse_url "FOO:BAR@baz:123").toOption.map Url.username = some "foo"
  ∧ (parse_url_claimed "FOO:BAR@baz:123").toOption.map Url.username = some "FOO"
  ∧ parse_url "FOO:BAR@baz:123" ≠ parse_url_claimed "FOO:BAR@baz:123" := by
  refine ⟨rfl, rfl, fun h => ?_⟩
  have h2 : (some "foo" : Option String) = some "FOO" :=
    congrArg (fun x => (Except.toOption x).map Url.username) h
  exact (by decide : ("foo" : String) ≠ "FOO") (Option.some.inj h2)

/-- C2 (amended): parse_url retries with a second parse exactly when (a) the
strict parse of raw succeeds but yields a non-base-capable URL — the retry
then prepends "http://" to the serialization of that parsed URL — or (b) the
strict parse fails with the no-base error and raw does not start with a
slash — the retry then prepends "http://" to raw; in every other case the
first outcome is final.  In particular parse_url "foo.com" succeeds with
scheme http, host foo.com, path slash, while parse_url "/foo" and
parse_url "data:text/plain,Hello" both return an error. -/
theorem parse_url_retry_policy (raw : String) (u : Url) :
    (Url.parse raw = .ok u → u.cannotBeABase = true →
        parse_url raw = finalizeParse (Url.parse ("http://" ++ u.toString)))
  ∧ (Url.parse raw = .ok u → u.cannotBeABase = false →
        parse_url raw = finalizeParse (.ok u))
  ∧ (Url.parse raw = .error .relativeUrlWithoutBase → startsWithSlash raw = false →
        parse_url raw = finalizeParse (Url.parse ("http://" ++ raw)))
  ∧ (Url.parse raw = .error .relativeUrlWithoutBase → startsWithSlash raw = true →
        parse_url raw = .error ⟨ParseError.relativeUrlWithoutBase.message⟩)
  ∧ (∀ e, Url.parse raw = .error e → e ≠ .relativeUrlWithoutBase →
        parse_url raw = .error ⟨e.message⟩)
  ∧ parse_url "foo.com" = .ok urlHttpFoo
  ∧ parse_url "/foo" = .error ⟨"relative URL without a base"⟩
  ∧ parse_url "data:text/plain,Hello" = .error ⟨"invalid port number"⟩ := by
  refine ⟨?_, ?_, ?_, ?_, ?_, rfl, rfl, rfl⟩
  · intro h hc
    simp [parse_url, h, hc]
  · intro h hc
    simp [parse_url, h, hc]
  · intro h hs
    simp [parse_url, h, hs]
  · intro h hs
    simp [parse_url, h, hs, finalizeParse]
  · intro e h he
    cases e with
    | relativeUrlWithoutBase => exact absurd rfl he
    | emptyHost => simp [parse_url, h, finalizeParse]
    | invalidPort => simp [parse_url, h, finalizeParse]
    | invalidDomainCharacter => simp [parse_url, h, finalizeParse]
    | setHostOnCannotBeABaseUrl => simp [parse_url, h, finalizeParse]

/-- Witness for C2 (amended) at concrete inputs covering every branch: the
cannot-be-a-base retry on "FOO:BAR@baz:123", the plain success on
"http://foo.com", the no-base retry on "foo.com", the refused retry on
"/foo", and a non-retryable error on "http://". -/
theorem parse_url_retry_policy_witness :
    parse_url "FOO:BAR@baz:123"
      = finalizeParse (Url.parse ("http://" ++ urlFooOpaque.toString))
  ∧ parse_url "http://foo.com" = finalizeParse (.ok urlHttpFoo)
  ∧ parse_url "foo.com" = finalizeParse (Url.parse ("http://" ++ "foo.com"))
  ∧ parse_url "/foo" = .error ⟨ParseError.relativeUrlWithoutBase.message⟩
  ∧ parse_url "http://" = .error ⟨ParseError.emptyHost.message⟩ :=
  ⟨(parse_url_retry_policy "FOO:BAR@baz:123" urlFooOpaque).1 rfl rfl,
   (parse_url_retry_policy "http://foo.com" urlHttpFoo).2.1 rfl rfl,
   (parse_url_retry_policy "foo.com" urlHttpFoo).2.2.1 rfl rfl,
   (parse_url_retry_policy "/foo" urlHttpFoo).2.2.2.1 rfl rfl,
   (parse_url_retry_policy "http://" urlHttpFoo).2.2.2.2.1 .emptyHost rfl
     (by decide)⟩
